import Mathlib

/-!
Verification of the YOLOv8-qat network-architecture module (`src/nets/nn.py`).

The development shallowly embeds the module-construction and forward-pass
logic of the file. Two complementary models are used:

* a *shape semantics*: every layer is a partial function on tensor shapes
  `(batch, channels, height, width)`, returning `none` exactly when PyTorch
  would raise a shape error (channel mismatch, concatenation of maps with
  different spatial sizes, additive skip over unequal shapes, or a
  convolution whose padded input is smaller than the kernel);
* a *value semantics* for the quantization-sensitive fragments (`SiLU`
  and the concatenation step of `CSP.forward`), where a tensor is a flat
  list of numbers together with optional quantization parameters
  (scale, zero-point).

Float arithmetic of the original is modelled with exact arithmetic
(`ℚ` for the quantization bookkeeping, `ℝ` where the sigmoid is needed).
-/

set_option autoImplicit false

namespace YOLOv8

/-- Tensor shape `(batch, channels, height, width)`, the shape of every
tensor flowing through `nn.py`. -/
@[ext]
structure Shape where
  n : ℕ
  c : ℕ
  h : ℕ
  w : ℕ
  deriving DecidableEq, Repr

/-- Configuration of a `torch.nn.Conv2d(in_ch, out_ch, k, s, (k-1)//2, bias=False)`. -/
structure ConvCfg where
  inCh : ℕ
  outCh : ℕ
  k : ℕ
  s : ℕ
  deriving DecidableEq, Repr

/-- Shape semantics of `torch.nn.Conv2d` with padding `(k-1)/2`: fails if the
input channel count differs from the configured one or the padded input is
smaller than the kernel, otherwise the usual
`floor((H + 2 pad - k)/s) + 1` output size. -/
def conv2dShape (cfg : ConvCfg) (sh : Shape) : Option Shape :=
  let p := (cfg.k - 1) / 2
  if sh.c = cfg.inCh ∧ cfg.k ≤ sh.h + 2 * p ∧ cfg.k ≤ sh.w + 2 * p ∧ 0 < cfg.s then
    some ⟨sh.n, cfg.outCh, (sh.h + 2 * p - cfg.k) / cfg.s + 1,
          (sh.w + 2 * p - cfg.k) / cfg.s + 1⟩
  else none

/-- Shape semantics of `torch.nn.BatchNorm2d(features)`: shape preserving,
fails when the channel count is not `features`. -/
def batchNorm2dShape (features : ℕ) (sh : Shape) : Option Shape :=
  if sh.c = features then some sh else none

/-- Shape semantics of the `Conv` block of `nn.py`
(`conv` → `norm` → `SiLU`); the activation is shape preserving. -/
def convShape (cfg : ConvCfg) (sh : Shape) : Option Shape :=
  (conv2dShape cfg sh).bind (batchNorm2dShape cfg.outCh)

/-- Shape semantics of `torch.nn.MaxPool2d(k, 1, k // 2)`. -/
def maxPool2dShape (k : ℕ) (sh : Shape) : Option Shape :=
  let p := k / 2
  if k ≤ sh.h + 2 * p ∧ k ≤ sh.w + 2 * p then
    some ⟨sh.n, sh.c, sh.h + 2 * p - k + 1, sh.w + 2 * p - k + 1⟩
  else none

/-- Shape semantics of `torch.nn.Upsample(scale_factor=2)`. -/
def upsample2Shape (sh : Shape) : Shape :=
  ⟨sh.n, sh.c, 2 * sh.h, 2 * sh.w⟩

/-- Shape semantics of `torch.cat(l, dim=1)`: all members must agree on the
batch and spatial dimensions, the channel counts add up. -/
def catShapes (l : List Shape) : Option Shape :=
  match l with
  | [] => none
  | s :: rest =>
    if rest.all fun t => t.n == s.n && t.h == s.h && t.w == s.w then
      some ⟨s.n, s.c + (rest.map Shape.c).sum, s.h, s.w⟩
    else none

/-- Binary `torch.cat([a, b], 1)`. -/
def cat2 (a b : Shape) : Option Shape := catShapes [a, b]

/-- Shape semantics of `Residual(ch, add)`: two 3×3 stride-1 `Conv` blocks on
`ch` channels; with `add = true` the skip addition additionally requires the
shapes of `x` and `conv2(conv1(x))` to coincide. -/
def residualShape (ch : ℕ) (add : Bool) (sh : Shape) : Option Shape := do
  let y ← convShape ⟨ch, ch, 3, 1⟩ sh
  let y ← convShape ⟨ch, ch, 3, 1⟩ y
  if add then
    if sh = y then some y else none
  else some y

/-- Shapes of the two chunks of `tensor.chunk(2, 1)`: the first chunk takes
`⌈c/2⌉` channels, the second the remaining `⌊c/2⌋`. -/
def chunk2Shape (sh : Shape) : Shape × Shape :=
  (⟨sh.n, (sh.c + 1) / 2, sh.h, sh.w⟩, ⟨sh.n, sh.c - (sh.c + 1) / 2, sh.h, sh.w⟩)

/-- Configuration of a `CSP(in_ch, out_ch, n, add)` block. -/
structure CSPCfg where
  inCh : ℕ
  outCh : ℕ
  n : ℕ
  add : Bool
  deriving DecidableEq, Repr

/-- The residual-chain loop of `CSP.forward`: `n` times, apply a
`Residual(outCh // 2, add)` to the last list element and append the result. -/
def cspChain (half : ℕ) (add : Bool) : ℕ → List Shape → Option (List Shape)
  | 0, acc => some acc
  | n + 1, acc =>
    match acc.getLast? with
    | none => none
    | some lastS => (residualShape half add lastS).bind fun r =>
        cspChain half add n (acc ++ [r])

/-- Shape semantics of `CSP.forward`: 1×1 `Conv` to `outCh`, chunk in two,
run the residual chain, concatenate everything, project with a 1×1 `Conv`
expecting `(2 + n) * outCh // 2` input channels.  (The quantization
handling of the concatenation is shape preserving and modelled separately
at value level.) -/
def cspShape (cfg : CSPCfg) (sh : Shape) : Option Shape := do
  let y ← convShape ⟨cfg.inCh, cfg.outCh, 1, 1⟩ sh
  let (a, b) := chunk2Shape y
  let ys ← cspChain (cfg.outCh / 2) cfg.add cfg.n [a, b]
  let yc ← catShapes ys
  convShape ⟨(2 + cfg.n) * cfg.outCh / 2, cfg.outCh, 1, 1⟩ yc

/-- Shape semantics of `SPP(in_ch, out_ch, k)`. -/
def sppShape (inCh outCh k : ℕ) (sh : Shape) : Option Shape := do
  let x ← convShape ⟨inCh, inCh / 2, 1, 1⟩ sh
  let y1 ← maxPool2dShape k x
  let y2 ← maxPool2dShape k y1
  let y3 ← maxPool2dShape k y2
  let yc ← catShapes [x, y1, y2, y3]
  convShape ⟨inCh * 2, outCh, 1, 1⟩ yc

/-- Structural configuration of `DarkNet(width, depth)`: the constructor
arguments of every submodule, exactly as `DarkNet.__init__` builds them.
The Python lists `width` (6 entries) and `depth` (3 entries) are read with
`List.getD`. -/
structure DarkNet where
  p1conv : ConvCfg
  p2conv : ConvCfg
  p2csp : CSPCfg
  p3conv : ConvCfg
  p3csp : CSPCfg
  p4conv : ConvCfg
  p4csp : CSPCfg
  p5conv : ConvCfg
  p5csp : CSPCfg
  p5sppIn : ℕ
  p5sppOut : ℕ
  deriving DecidableEq, Repr

/-- `DarkNet.__init__` of `nn.py`. -/
def mkDarkNet (width depth : List ℕ) : DarkNet :=
  let w := fun i => width.getD i 0
  let d := fun i => depth.getD i 0
  { p1conv := ⟨w 0, w 1, 3, 2⟩
    p2conv := ⟨w 1, w 2, 3, 2⟩
    p2csp := ⟨w 2, w 2, d 0, true⟩
    p3conv := ⟨w 2, w 3, 3, 2⟩
    p3csp := ⟨w 3, w 3, d 1, true⟩
    p4conv := ⟨w 3, w 4, 3, 2⟩
    p4csp := ⟨w 4, w 4, d 2, true⟩
    p5conv := ⟨w 4, w 5, 3, 2⟩
    p5csp := ⟨w 5, w 5, d 0, true⟩
    p5sppIn := w 5
    p5sppOut := w 5 }

/-- Shape semantics of the `p1` … `p5` stages of `DarkNet.forward`. -/
def DarkNet.stage1 (m : DarkNet) (x : Shape) : Option Shape := convShape m.p1conv x

def DarkNet.stage2 (m : DarkNet) (x : Shape) : Option Shape :=
  (convShape m.p2conv x).bind (cspShape m.p2csp)

def DarkNet.stage3 (m : DarkNet) (x : Shape) : Option Shape :=
  (convShape m.p3conv x).bind (cspShape m.p3csp)

def DarkNet.stage4 (m : DarkNet) (x : Shape) : Option Shape :=
  (convShape m.p4conv x).bind (cspShape m.p4csp)

def DarkNet.stage5 (m : DarkNet) (x : Shape) : Option Shape :=
  ((convShape m.p5conv x).bind (cspShape m.p5csp)).bind
    (sppShape m.p5sppIn m.p5sppOut 5)

/-- `DarkNet.forward`: chain the five stages and return `(p3, p4, p5)`. -/
def DarkNet.forward (m : DarkNet) (x : Shape) : Option (Shape × Shape × Shape) := do
  let p1 ← m.stage1 x
  let p2 ← m.stage2 p1
  let p3 ← m.stage3 p2
  let p4 ← m.stage4 p3
  let p5 ← m.stage5 p4
  return (p3, p4, p5)

/-- Structural configuration of `DarkFPN(width, depth)`. -/
structure DarkFPN where
  h1 : CSPCfg
  h2 : CSPCfg
  h3 : ConvCfg
  h4 : CSPCfg
  h5 : ConvCfg
  h6 : CSPCfg
  deriving DecidableEq, Repr

/-- `DarkFPN.__init__` of `nn.py`. -/
def mkDarkFPN (width depth : List ℕ) : DarkFPN :=
  let w := fun i => width.getD i 0
  let d := fun i => depth.getD i 0
  { h1 := ⟨w 4 + w 5, w 4, d 0, false⟩
    h2 := ⟨w 3 + w 4, w 3, d 0, false⟩
    h3 := ⟨w 3, w 3, 3, 2⟩
    h4 := ⟨w 3 + w 4, w 4, d 0, false⟩
    h5 := ⟨w 4, w 4, 3, 2⟩
    h6 := ⟨w 4 + w 5, w 5, d 0, false⟩ }

/-- Shape semantics of `DarkFPN.forward`. -/
def DarkFPN.forward (m : DarkFPN) (p3 p4 p5 : Shape) :
    Option (Shape × Shape × Shape) := do
  let p4 ← (cat2 (upsample2Shape p5) p4).bind (cspShape m.h1)
  let p3 ← (cat2 (upsample2Shape p4) p3).bind (cspShape m.h2)
  let t ← convShape m.h3 p3
  let p4 ← (cat2 t p4).bind (cspShape m.h4)
  let t ← convShape m.h5 p4
  let p5 ← (cat2 t p5).bind (cspShape m.h6)
  return (p3, p4, p5)

/-- One detection branch of the head: two `Conv` blocks followed by a bare
`torch.nn.Conv2d`. -/
structure BranchCfg where
  conv1 : ConvCfg
  conv2 : ConvCfg
  final : ConvCfg
  deriving DecidableEq, Repr

/-- Structural configuration of `Head(nc, ch)`: per-scale box and class
branches exactly as the two `ModuleList` generators build them. -/
structure Head where
  nc : ℕ
  no : ℕ
  ch : List ℕ
  box : List BranchCfg
  cls : List BranchCfg
  deriving DecidableEq, Repr

/-- `Head.__init__` of `nn.py`: a single `box = max(64, ch[0] // 4)` and a
single `cls = max(80, ch[0], nc)` are computed from `ch[0]` and used as the
hidden width of every scale's branches. -/
def mkHead (nc : ℕ) (ch : List ℕ) : Head :=
  let boxW := max 64 (ch.getD 0 0 / 4)
  let clsW := max 80 (max (ch.getD 0 0) nc)
  { nc := nc
    no := nc + 4
    ch := ch
    box := ch.map fun x => ⟨⟨x, boxW, 3, 1⟩, ⟨boxW, boxW, 3, 1⟩, ⟨boxW, 4, 1, 1⟩⟩
    cls := ch.map fun x => ⟨⟨x, clsW, 3, 1⟩, ⟨clsW, clsW, 3, 1⟩, ⟨clsW, nc, 1, 1⟩⟩ }

/-- The hidden channel width of the box branch at scale `i`
(the `out_ch` of its first `Conv`), `none` when the scale does not exist. -/
def Head.boxHidden (m : Head) (i : ℕ) : Option ℕ :=
  (m.box.get? i).map fun b => b.conv1.outCh

/-- The hidden channel width of the class branch at scale `i`. -/
def Head.clsHidden (m : Head) (i : ℕ) : Option ℕ :=
  (m.cls.get? i).map fun b => b.conv1.outCh

/-- Shape semantics of one head branch. -/
def branchShape (b : BranchCfg) (sh : Shape) : Option Shape :=
  ((convShape b.conv1 sh).bind (convShape b.conv2)).bind (conv2dShape b.final)

/-- Shape semantics of `Head.forward`: for each scale, run the box and class
branches and concatenate their outputs along the channel axis; return the
three per-scale outputs as a list, in `(p3, p4, p5)` order. -/
def Head.forward (m : Head) (p3 p4 p5 : Shape) : Option (List Shape) := do
  let b0 ← m.box.get? 0
  let c0 ← m.cls.get? 0
  let out0 ← (branchShape b0 p3).bind fun bo =>
    (branchShape c0 p3).bind fun co => cat2 bo co
  let b1 ← m.box.get? 1
  let c1 ← m.cls.get? 1
  let out1 ← (branchShape b1 p4).bind fun bo =>
    (branchShape c1 p4).bind fun co => cat2 bo co
  let b2 ← m.box.get? 2
  let c2 ← m.cls.get? 2
  let out2 ← (branchShape b2 p5).bind fun bo =>
    (branchShape c2 p5).bind fun co => cat2 bo co
  return [out0, out1, out2]

/-- The composite forward pass of `YOLO.forward`: backbone, then pyramid,
then head. -/
def yoloShapes (net : DarkNet) (fpn : DarkFPN) (head : Head) (x : Shape) :
    Option (List Shape) := do
  let (p3, p4, p5) ← net.forward x
  let (p3, p4, p5) ← fpn.forward p3 p4 p5
  head.forward p3 p4 p5

/-- A constructed `YOLO` model: submodules plus the stride tensor that
`YOLO.__init__` stores on the head (and mirrors on itself). -/
structure YOLO where
  net : DarkNet
  fpn : DarkFPN
  head : Head
  stride : List ℚ
  deriving DecidableEq, Repr

/-- `YOLO.__init__`: build the submodules, run one forward pass on a dummy
all-zero input of shape `(1, width[0], 256, 256)` and set
`stride[i] = 256 / output_i.shape[-2]`.  The construction fails (PyTorch
raises) exactly when that dummy forward pass fails. -/
def mkYOLO (width depth : List ℕ) (numClasses : ℕ) : Option YOLO :=
  let net := mkDarkNet width depth
  let fpn := mkDarkFPN width depth
  let head := mkHead numClasses [width.getD 3 0, width.getD 4 0, width.getD 5 0]
  match yoloShapes net fpn head ⟨1, width.getD 0 0, 256, 256⟩ with
  | none => none
  | some outs => some ⟨net, fpn, head, outs.map fun s => (256 : ℚ) / s.h⟩

/-- Shape semantics of `YOLO.forward` on a constructed model. -/
def YOLO.forward (m : YOLO) (x : Shape) : Option (List Shape) :=
  yoloShapes m.net m.fpn m.head x

/-- `YOLO.forward` together with the model state after the call: the method
body of `YOLO.forward` contains no assignment, so the model (in particular
its stride tensor) is returned unchanged. -/
def YOLO.forwardRun (m : YOLO) (x : Shape) : Option (List Shape) × YOLO :=
  (m.forward x, m)

/-- The stride list `YOLO.__init__` derives from the dummy forward pass on
the all-zero `(1, width[0], 256, 256)` input, as a standalone computation. -/
def dummyStride (width depth : List ℕ) (numClasses : ℕ) : Option (List ℚ) :=
  (yoloShapes (mkDarkNet width depth) (mkDarkFPN width depth)
      (mkHead numClasses [width.getD 3 0, width.getD 4 0, width.getD 5 0])
      ⟨1, width.getD 0 0, 256, 256⟩).map
    fun outs => outs.map fun s => (256 : ℚ) / s.h

/-- A constructed `QAT` wrapper: the wrapped model plus the fields
`QAT.__init__` copies from it.  The quantize / dequantize stubs own no
structural configuration. -/
structure QAT where
  model : YOLO
  nc : ℕ
  no : ℕ
  stride : List ℚ
  deriving DecidableEq, Repr

/-- `QAT.__init__` of `nn.py`. -/
def mkQAT (m : YOLO) : QAT :=
  { model := m, nc := m.head.nc, no := m.head.no, stride := m.stride }

/-- Shape semantics of `torch.quantization.QuantStub`: shape preserving. -/
def quantStubShape (sh : Shape) : Shape := sh

/-- Shape semantics of `torch.quantization.DeQuantStub`: shape preserving. -/
def deQuantStubShape (sh : Shape) : Shape := sh

/-- Shape semantics of `QAT.forward`: quantize the input, run the wrapped
model, dequantize every output tensor. -/
def QAT.forward (q : QAT) (x : Shape) : Option (List Shape) :=
  (q.model.forward (quantStubShape x)).map fun l => l.map deQuantStubShape

/-- `yolo_v8_n` of `nn.py`. -/
def yolo_v8_n (numClasses : ℕ := 80) : Option YOLO :=
  mkYOLO [3, 16, 32, 64, 128, 256] [1, 2, 2] numClasses

/-- `yolo_v8_t` of `nn.py`. -/
def yolo_v8_t (numClasses : ℕ := 80) : Option YOLO :=
  mkYOLO [3, 24, 48, 96, 192, 384] [1, 2, 2] numClasses

/-- `yolo_v8_s` of `nn.py`. -/
def yolo_v8_s (numClasses : ℕ := 80) : Option YOLO :=
  mkYOLO [3, 32, 64, 128, 256, 512] [1, 2, 2] numClasses

/-- `yolo_v8_m` of `nn.py`. -/
def yolo_v8_m (numClasses : ℕ := 80) : Option YOLO :=
  mkYOLO [3, 48, 96, 192, 384, 576] [2, 4, 4] numClasses

/-- `yolo_v8_l` of `nn.py`. -/
def yolo_v8_l (numClasses : ℕ := 80) : Option YOLO :=
  mkYOLO [3, 64, 128, 256, 512, 512] [3, 6, 6] numClasses

/-- `yolo_v8_x` of `nn.py`. -/
def yolo_v8_x (numClasses : ℕ := 80) : Option YOLO :=
  mkYOLO [3, 80, 160, 320, 640, 640] [3, 6, 6] numClasses

/-! ### Value-level model of the quantization-sensitive code

A tensor is a flat list of scalar values together with optional
quantization parameters.  For a quantized tensor `data` holds the stored
integer representation (as a scalar), and the represented real value of an
entry `v` is `scale * (v - zero_point)`; for a real-valued tensor `data`
holds the values themselves.  Scalars are exact rationals for the `CSP`
concatenation model and reals for `SiLU` (whose sigmoid needs `exp`). -/

/-- Quantization parameters of a `torch.quint8` per-tensor-affine tensor. -/
structure QParams where
  scale : ℚ
  zero_point : ℤ
  deriving DecidableEq, Repr

/-- Value-level tensor for the `CSP` concatenation model. -/
structure QTensor where
  data : List ℚ
  q : Option QParams
  deriving DecidableEq, Repr

/-- `tensor.is_quantized`. -/
def QTensor.is_quantized (t : QTensor) : Bool := t.q.isSome

/-- `tensor.q_scale()` (meaningful only on quantized tensors, as in torch). -/
def QTensor.q_scale (t : QTensor) : ℚ := ((t.q.getD ⟨1, 0⟩).scale)

/-- `tensor.q_zero_point()`. -/
def QTensor.q_zero_point (t : QTensor) : ℤ := ((t.q.getD ⟨1, 0⟩).zero_point)

/-- `tensor.dequantize()`: recover the represented real values and drop the
quantization parameters; identity on an already real-valued tensor. -/
def QTensor.dequantize (t : QTensor) : QTensor :=
  match t.q with
  | some p => ⟨t.data.map fun v => p.scale * (v - (p.zero_point : ℚ)), none⟩
  | none => t

/-- Clamp to the `quint8` representable range `[0, 255]`. -/
def qClamp (v : ℤ) : ℤ := max 0 (min 255 v)

/-- `torch.quantize_per_tensor(_, scale, zero_point, torch.quint8)`:
round each value divided by the scale, shift by the zero-point, clamp to
the 8-bit range, and attach the given quantization parameters.  (Rounding
ties are immaterial to the properties proved here.) -/
def quantize_per_tensor (data : List ℚ) (scale : ℚ) (zp : ℤ) : QTensor :=
  ⟨data.map fun v => ((qClamp (round (v / scale) + zp) : ℤ) : ℚ), some ⟨scale, zp⟩⟩

/-- `torch.cat` on value-level tensors holding real values: concatenation of
the value lists, result not quantized. -/
def catQ (ts : List QTensor) : QTensor :=
  ⟨(ts.map QTensor.data).flatten, none⟩

/-- The concatenation step of `CSP.forward` (the `# Handle quantized tensors
safely` block): given the original block input `x` and the accumulated list
`y_list`, concatenate, dequantizing everything first and re-quantizing with
`x`'s parameters (or `scale=1.0, zero_point=0`) when any member is
quantized. -/
def cspConcat (x : QTensor) (y_list : List QTensor) : QTensor :=
  if y_list.any QTensor.is_quantized then
    let dequantized := y_list.map fun t => if t.is_quantized then t.dequantize else t
    let y_cat := catQ dequantized
    let scale := if x.is_quantized then x.q_scale else 1
    let zero_point := if x.is_quantized then x.q_zero_point else 0
    quantize_per_tensor y_cat.data scale zero_point
  else
    catQ y_list

/-- Real-valued tensor for the `SiLU` model. -/
structure RTensor where
  data : List ℝ
  scale : Option (ℝ × ℤ)

/-- `tensor.is_quantized` for the real-valued model. -/
def RTensor.is_quantized (t : RTensor) : Bool := t.scale.isSome

/-- The logistic sigmoid. -/
noncomputable def sigmoid (x : ℝ) : ℝ := 1 / (1 + Real.exp (-x))

/-- `tensor.dequantize()` on the real-valued model. -/
noncomputable def RTensor.dequantize (t : RTensor) : List ℝ :=
  match t.scale with
  | some (s, z) => t.data.map fun v => s * (v - (z : ℝ))
  | none => t.data

/-- `torch.nn.Sigmoid` applied to a tensor: elementwise sigmoid on a
real-valued tensor; on a quantized tensor, sigmoid of the represented
values re-quantized at torch's fixed output parameters
(`scale = 1/256`, `zero_point = 0`). -/
noncomputable def sigmoidT (t : RTensor) : RTensor :=
  match t.scale with
  | none => ⟨t.data.map sigmoid, none⟩
  | some _ => ⟨(t.dequantize.map sigmoid).map fun v => ((round (v * 256) : ℤ) : ℝ),
               some (1 / 256, 0)⟩

/-- `torch.nn.functional.relu` elementwise: `max(x, 0)`. -/
noncomputable def reluT (t : RTensor) : RTensor :=
  ⟨t.data.map fun v => max v 0, t.scale⟩

/-- Elementwise real multiplication of two tensors. -/
noncomputable def mulT (a b : RTensor) : RTensor :=
  ⟨a.data.zipWith (· * ·) b.data, none⟩

/-- `torch.ops.quantized.mul(a, b, scale, zero_point)`: dequantize both
operands, multiply elementwise, re-quantize at the given parameters. -/
noncomputable def quantized_mul (a b : RTensor) (scale : ℝ) (zp : ℤ) : RTensor :=
  ⟨(a.dequantize.zipWith (· * ·) b.dequantize).map
      fun v => ((qClamp (round (v / scale) + zp) : ℤ) : ℝ),
   some (scale, zp)⟩

/-- `tensor.q_scale()` for the real-valued model. -/
noncomputable def RTensor.q_scale (t : RTensor) : ℝ := (t.scale.getD (1, 0)).1

/-- `tensor.q_zero_point()` for the real-valued model. -/
def RTensor.q_zero_point (t : RTensor) : ℤ := (t.scale.getD (1, 0)).2

/-- `SiLU.forward` of `nn.py`: on a quantized tensor, quantized multiply of
`x` and `sigmoid(x)` at `x`'s own scale and zero-point; on a real-valued
tensor, `relu(x) * sigmoid(x)`. -/
noncomputable def SiLU.forward (x : RTensor) : RTensor :=
  if x.is_quantized then
    quantized_mul x (sigmoidT x) x.q_scale x.q_zero_point
  else
    mulT (reluT x) (sigmoidT x)

/-! ### Helper lemmas -/

/-- A 1×1 stride-1 `Conv` block maps `⟨n, a, h, w⟩` to `⟨n, b, h, w⟩`. -/
theorem convShape_k1s1 (a b : ℕ) (sh y : Shape)
    (h : convShape ⟨a, b, 1, 1⟩ sh = some y) :
    y = ⟨sh.n, b, sh.h, sh.w⟩ ∧ sh.c = a := by
  unfold convShape conv2dShape batchNorm2dShape at h
  simp only at h
  split at h
  · next hc =>
    obtain ⟨hc1, hh, hw, -⟩ := hc
    simp only [Option.some_bind] at h
    split at h
    · cases h
      exact ⟨by ext <;> simp <;> omega, hc1⟩
    · cases h
  · cases h

/-- A 3×3 stride-1 `Conv` block is spatial-size preserving. -/
theorem convShape_k3s1 (a b : ℕ) (sh y : Shape)
    (h : convShape ⟨a, b, 3, 1⟩ sh = some y) :
    y = ⟨sh.n, b, sh.h, sh.w⟩ ∧ sh.c = a := by
  unfold convShape conv2dShape batchNorm2dShape at h
  simp only at h
  split at h
  · next hc =>
    obtain ⟨hc1, hh, hw, -⟩ := hc
    simp only [Option.some_bind] at h
    split at h
    · cases h
      exact ⟨by ext <;> simp <;> omega, hc1⟩
    · cases h
  · cases h

/-- A successful `Residual` pass is the identity on shapes and pins the
input channel count to the configured one. -/
theorem residualShape_some (ch : ℕ) (add : Bool) (sh s' : Shape)
    (h : residualShape ch add sh = some s') : s' = sh ∧ sh.c = ch := by
  unfold residualShape at h
  simp only [Option.bind_eq_bind, Option.bind_eq_some] at h
  obtain ⟨y1, hy1, y2, hy2, h⟩ := h
  obtain ⟨hy1e, hc⟩ := convShape_k3s1 ch ch sh y1 hy1
  obtain ⟨hy2e, -⟩ := convShape_k3s1 ch ch y1 y2 hy2
  have hy2sh : y2 = sh := by
    rw [hy2e, hy1e]
    ext <;> simp [hc]
  rw [hy2sh] at h
  refine ⟨?_, hc⟩
  cases add
  · simpa using h.symm
  · simp at h
    exact h.symm

/-- The residual chain of `CSP.forward` only ever appends copies of the
common shape of the accumulated list. -/
theorem cspChain_all_eq (half : ℕ) (add : Bool) :
    ∀ (n : ℕ) (s0 : Shape) (acc ys : List Shape),
      acc ≠ [] → (∀ s ∈ acc, s = s0) →
      cspChain half add n acc = some ys →
      ys.length = acc.length + n ∧ ∀ s ∈ ys, s = s0 := by
  intro n
  induction n with
  | zero =>
    intro s0 acc ys _ hall h
    unfold cspChain at h
    cases h
    exact ⟨rfl, hall⟩
  | succ n ih =>
    intro s0 acc ys hne hall h
    unfold cspChain at h
    cases hl : acc.getLast? with
    | none => rw [hl] at h; cases h
    | some l0 =>
      rw [hl] at h
      simp only [Option.bind_eq_some] at h
      obtain ⟨r, hr, hrec⟩ := h
      have hl0 : l0 = s0 := by
        obtain ⟨hne', hx⟩ := List.mem_getLast?_eq_getLast (l := acc) (x := l0) hl
        exact hall l0 (hx ▸ List.getLast_mem hne')
      obtain ⟨hre, -⟩ := residualShape_some half add l0 r hr
      have hall' : ∀ s ∈ acc ++ [r], s = s0 := by
        intro s hs
        rcases List.mem_append.mp hs with hs | hs
        · exact hall s hs
        · simp at hs
          rw [hs, hre, hl0]
      obtain ⟨hlen, hys⟩ := ih s0 (acc ++ [r]) ys (by simp) hall' hrec
      refine ⟨?_, hys⟩
      simp at hlen
      omega

/-- Concatenating `k` copies of one shape adds up the channel counts. -/
theorem catShapes_const (s0 : Shape) (k : ℕ) (hk : 0 < k) :
    catShapes (List.replicate k s0) = some ⟨s0.n, k * s0.c, s0.h, s0.w⟩ := by
  cases k with
  | zero => omega
  | succ k =>
    rw [List.replicate_succ]
    have hstep : catShapes (s0 :: List.replicate k s0) =
        if ((List.replicate k s0).all
            fun t => t.n == s0.n && t.h == s0.h && t.w == s0.w) = true
        then some ⟨s0.n, s0.c + (List.map Shape.c (List.replicate k s0)).sum, s0.h, s0.w⟩
        else none := rfl
    rw [hstep, if_pos]
    · have : s0.c + k * s0.c = (k + 1) * s0.c := by ring
      simp [List.map_replicate, List.sum_replicate, smul_eq_mul, this]
    · simp only [List.all_eq_true]
      intro t ht
      rw [List.eq_of_mem_replicate ht]
      simp

/-! ### Claim theorems -/

/-- **C1** (counterexample): the claim says the class branch of scale `i`
has hidden width `max(80, C_i, num_classes)` as a function of that scale's
own input channel count.  On the model built by `yolo_v8_n` (per-scale
input channels `(64, 128, 256)`, 80 classes) the scale-1 class branch has
hidden width 80, not `max(80, 128, 80) = 128`. -/
theorem head_width_per_scale_counterexample :
    ((yolo_v8_n 80).map fun m => m.head.ch) = some [64, 128, 256] ∧
    ((yolo_v8_n 80).map fun m => m.head.clsHidden 1) = some (some 80) ∧
    ¬ ((yolo_v8_n 80).map fun m => m.head.clsHidden 1)
        = some (some (max 80 (max 128 80))) := by
  refine ⟨by decide, by decide, by decide⟩

/-- **C1** (amended): in `Head.__init__` both hidden widths are computed
once from the *first* scale's input channel count `ch[0]` and shared by
all three scales: every scale's box branch has hidden width
`max(64, ch[0] // 4)` and every scale's class branch has hidden width
`max(80, ch[0], num_classes)`. -/
theorem head_width_from_scale0 (nc : ℕ) (ch : List ℕ) (i : ℕ)
    (hi : i < ch.length) :
    (mkHead nc ch).boxHidden i = some (max 64 (ch.getD 0 0 / 4)) ∧
    (mkHead nc ch).clsHidden i = some (max 80 (max (ch.getD 0 0) nc)) := by
  unfold mkHead Head.boxHidden Head.clsHidden
  simp [List.get?_eq_getElem?, List.getElem?_map, List.getElem?_eq_getElem hi]

/-- Witness for `head_width_from_scale0` at the `yolo_v8_n` head
configuration, scale 1. -/
theorem head_width_from_scale0_witness :
    1 < ([64, 128, 256] : List ℕ).length ∧
    ((mkHead 80 [64, 128, 256]).boxHidden 1
        = some (max 64 (([64, 128, 256] : List ℕ).getD 0 0 / 4)) ∧
      (mkHead 80 [64, 128, 256]).clsHidden 1
        = some (max 80 (max (([64, 128, 256] : List ℕ).getD 0 0) 80))) :=
  ⟨by decide, head_width_from_scale0 80 [64, 128, 256] 1 (by decide)⟩

/-- **C3**: the `n` variant with 80 classes maps a `(1, 3, 256, 256)` input
to a list of exactly three tensors with 84 channels each and spatial sizes
32×32, 16×16 and 8×8, in that order. -/
theorem yolo_n_forward_shapes :
    ((yolo_v8_n 80).bind fun m => m.forward ⟨1, 3, 256, 256⟩) =
      some [⟨1, 84, 32, 32⟩, ⟨1, 84, 16, 16⟩, ⟨1, 84, 8, 8⟩] := by
  decide

/-- **C7**: in `DarkNet.__init__` the `p2` and `p5` CSP blocks are both
built with repetition count `depth[0]` while `p3` and `p4` use `depth[1]`
and `depth[2]`; and `DarkNet.forward` returns exactly the tuple of the
`p3`, `p4`, `p5` stage outputs. -/
theorem darknet_depth_reuse :
    (∀ width depth : List ℕ,
      (mkDarkNet width depth).p2csp.n = depth.getD 0 0 ∧
      (mkDarkNet width depth).p5csp.n = depth.getD 0 0 ∧
      (mkDarkNet width depth).p3csp.n = depth.getD 1 0 ∧
      (mkDarkNet width depth).p4csp.n = depth.getD 2 0) ∧
    (∀ (m : DarkNet) (x p1 p2 p3 p4 p5 : Shape),
      m.stage1 x = some p1 → m.stage2 p1 = some p2 → m.stage3 p2 = some p3 →
      m.stage4 p3 = some p4 → m.stage5 p4 = some p5 →
      m.forward x = some (p3, p4, p5)) := by
  constructor
  · intro width depth
    exact ⟨rfl, rfl, rfl, rfl⟩
  · intro m x p1 p2 p3 p4 p5 h1 h2 h3 h4 h5
    simp [DarkNet.forward, h1, h2, h3, h4, h5]

/-- Witness for `darknet_depth_reuse` on the `n`-variant backbone with a
`(1, 3, 256, 256)` input: the five stage outputs are concrete and the
forward pass returns the last three. -/
theorem darknet_depth_reuse_witness :
    (mkDarkNet [3, 16, 32, 64, 128, 256] [1, 2, 2]).stage1 ⟨1, 3, 256, 256⟩
        = some ⟨1, 16, 128, 128⟩ ∧
    (mkDarkNet [3, 16, 32, 64, 128, 256] [1, 2, 2]).stage2 ⟨1, 16, 128, 128⟩
        = some ⟨1, 32, 64, 64⟩ ∧
    (mkDarkNet [3, 16, 32, 64, 128, 256] [1, 2, 2]).stage3 ⟨1, 32, 64, 64⟩
        = some ⟨1, 64, 32, 32⟩ ∧
    (mkDarkNet [3, 16, 32, 64, 128, 256] [1, 2, 2]).stage4 ⟨1, 64, 32, 32⟩
        = some ⟨1, 128, 16, 16⟩ ∧
    (mkDarkNet [3, 16, 32, 64, 128, 256] [1, 2, 2]).stage5 ⟨1, 128, 16, 16⟩
        = some ⟨1, 256, 8, 8⟩ ∧
    (mkDarkNet [3, 16, 32, 64, 128, 256] [1, 2, 2]).forward ⟨1, 3, 256, 256⟩
        = some (⟨1, 64, 32, 32⟩, ⟨1, 128, 16, 16⟩, ⟨1, 256, 8, 8⟩) :=
  ⟨by decide, by decide, by decide, by decide, by decide,
    darknet_depth_reuse.2 (mkDarkNet [3, 16, 32, 64, 128, 256] [1, 2, 2])
      ⟨1, 3, 256, 256⟩ ⟨1, 16, 128, 128⟩ ⟨1, 32, 64, 64⟩ ⟨1, 64, 32, 32⟩
      ⟨1, 128, 16, 16⟩ ⟨1, 256, 8, 8⟩
      (by decide) (by decide) (by decide) (by decide) (by decide)⟩

/-- **C9**: all six variant factories (default 80 classes) construct
successfully — every producer/consumer channel check in the backbone,
pyramid and head passes, including the dummy forward pass run at
construction. -/
theorem factory_constructions_succeed :
    (yolo_v8_n 80).isSome = true ∧ (yolo_v8_t 80).isSome = true ∧
    (yolo_v8_s 80).isSome = true ∧ (yolo_v8_m 80).isSome = true ∧
    (yolo_v8_l 80).isSome = true ∧ (yolo_v8_x 80).isSome = true := by
  refine ⟨by decide, by decide, by decide, by decide, by decide, by decide⟩

/-- **C10**: all four CSP blocks of `DarkFPN.__init__` are built with
repetition count `depth[0]`; the entries `depth[1]` and `depth[2]` are not
used at all — two depth lists agreeing at index 0 produce identical
pyramid configurations. -/
theorem fpn_depth_zero_only :
    (∀ width depth : List ℕ,
      (mkDarkFPN width depth).h1.n = depth.getD 0 0 ∧
      (mkDarkFPN width depth).h2.n = depth.getD 0 0 ∧
      (mkDarkFPN width depth).h4.n = depth.getD 0 0 ∧
      (mkDarkFPN width depth).h6.n = depth.getD 0 0) ∧
    (∀ width depth depth' : List ℕ, depth.getD 0 0 = depth'.getD 0 0 →
      mkDarkFPN width depth = mkDarkFPN width depth') := by
  constructor
  · intro width depth
    exact ⟨rfl, rfl, rfl, rfl⟩
  · intro width depth depth' h
    simp only [mkDarkFPN]
    rw [h]

/-- Witness for `fpn_depth_zero_only`: the `n`-variant depth list and one
differing everywhere but at index 0 give the same pyramid. -/
theorem fpn_depth_zero_only_witness :
    ([1, 2, 2] : List ℕ).getD 0 0 = ([1, 9, 9] : List ℕ).getD 0 0 ∧
    mkDarkFPN [3, 16, 32, 64, 128, 256] [1, 2, 2]
      = mkDarkFPN [3, 16, 32, 64, 128, 256] [1, 9, 9] :=
  ⟨by decide, fpn_depth_zero_only.2 [3, 16, 32, 64, 128, 256] [1, 2, 2] [1, 9, 9] (by decide)⟩

/-- **C2**: the stride tensor is never touched by a forward pass
(`YOLO.forward` has no state write, so `forwardRun` returns the model
unchanged); for every configuration the constructed model's stride is
exactly the one derived from the single dummy forward pass on the all-zero
`(1, width[0], 256, 256)` input, `stride[i] = 256 / height_i`; and on all
six variant factories this yields exactly `[8, 16, 32]`. -/
theorem stride_once_at_construction :
    (∀ (m : YOLO) (x : Shape), (m.forwardRun x).2 = m) ∧
    (∀ (width depth : List ℕ) (nc : ℕ),
      (mkYOLO width depth nc).map YOLO.stride = dummyStride width depth nc) ∧
    ((yolo_v8_n 80).map YOLO.stride = some [8, 16, 32] ∧
      (yolo_v8_t 80).map YOLO.stride = some [8, 16, 32] ∧
      (yolo_v8_s 80).map YOLO.stride = some [8, 16, 32] ∧
      (yolo_v8_m 80).map YOLO.stride = some [8, 16, 32] ∧
      (yolo_v8_l 80).map YOLO.stride = some [8, 16, 32] ∧
      (yolo_v8_x 80).map YOLO.stride = some [8, 16, 32]) := by
  have hb : ∀ (width depth : List ℕ) (nc : ℕ),
      (mkYOLO width depth nc).map YOLO.stride = dummyStride width depth nc := by
    intro width depth nc
    simp only [mkYOLO, dummyStride]
    cases h : yoloShapes (mkDarkNet width depth) (mkDarkFPN width depth)
        (mkHead nc [width.getD 3 0, width.getD 4 0, width.getD 5 0])
        ⟨1, width.getD 0 0, 256, 256⟩ <;> rfl
  have hs : ∀ (width depth : List ℕ) (nc : ℕ) (outs : List Shape),
      yoloShapes (mkDarkNet width depth) (mkDarkFPN width depth)
          (mkHead nc [width.getD 3 0, width.getD 4 0, width.getD 5 0])
          ⟨1, width.getD 0 0, 256, 256⟩ = some outs →
      dummyStride width depth nc = some (outs.map fun s => (256 : ℚ) / s.h) := by
    intro width depth nc outs h
    unfold dummyStride
    rw [h]
    rfl
  have hout : ∀ width depth : List ℕ,
      dummyStride width depth 80
          = some ([⟨1, 84, 32, 32⟩, ⟨1, 84, 16, 16⟩,
                   (⟨1, 84, 8, 8⟩ : Shape)].map fun s => (256 : ℚ) / s.h) →
      (mkYOLO width depth 80).map YOLO.stride = some [8, 16, 32] := by
    intro width depth h
    rw [hb, h]
    simp only [List.map_cons, List.map_nil, Option.some.injEq, List.cons.injEq, and_true]
    norm_num
  refine ⟨fun m x => rfl, hb, ?_, ?_, ?_, ?_, ?_, ?_⟩ <;>
    exact hout _ _ (hs _ _ _ _ (by decide))

/-- **C4**: a `CSP` block with even `out_ch` splits its first 1×1 `Conv`'s
output into two halves of `out_ch / 2` channels; a successful depth-`n`
residual chain yields a concatenation list of exactly `2 + n` tensors of
`out_ch / 2` channels each, whose concatenation has `(2 + n) * out_ch / 2`
channels — precisely the input width of the projection `Conv` that
`CSP.__init__` declares (`conv2 = Conv((2 + n) * out_ch // 2, out_ch)`). -/
theorem csp_split_concat_width (inCh outCh n : ℕ) (add : Bool) (sh y : Shape)
    (ys : List Shape)
    (heven : outCh % 2 = 0)
    (hconv : convShape ⟨inCh, outCh, 1, 1⟩ sh = some y)
    (hchain : cspChain (outCh / 2) add n
      [(chunk2Shape y).1, (chunk2Shape y).2] = some ys) :
    (chunk2Shape y).1.c = outCh / 2 ∧ (chunk2Shape y).2.c = outCh / 2 ∧
    ys.length = 2 + n ∧ (∀ s ∈ ys, s.c = outCh / 2) ∧
    catShapes ys = some ⟨y.n, (2 + n) * outCh / 2, y.h, y.w⟩ := by
  obtain ⟨hye, -⟩ := convShape_k1s1 inCh outCh sh y hconv
  have hyc : y.c = outCh := by rw [hye]
  have hch1 : (chunk2Shape y).1 = ⟨y.n, outCh / 2, y.h, y.w⟩ := by
    unfold chunk2Shape
    ext <;> simp [hyc] <;> omega
  have hch2 : (chunk2Shape y).2 = ⟨y.n, outCh / 2, y.h, y.w⟩ := by
    unfold chunk2Shape
    ext <;> simp [hyc] <;> omega
  rw [hch1, hch2] at hchain
  obtain ⟨hlen, hall⟩ := cspChain_all_eq (outCh / 2) add n ⟨y.n, outCh / 2, y.h, y.w⟩
    [⟨y.n, outCh / 2, y.h, y.w⟩, ⟨y.n, outCh / 2, y.h, y.w⟩] ys (by simp)
    (by
      intro s hs
      rcases List.mem_pair.mp hs with h | h <;> exact h) hchain
  have hys : ys = List.replicate (2 + n) (⟨y.n, outCh / 2, y.h, y.w⟩ : Shape) :=
    List.eq_replicate_iff.mpr ⟨by simpa using hlen, hall⟩
  refine ⟨by rw [hch1], by rw [hch2], by simpa using hlen, ?_, ?_⟩
  · intro s hs
    rw [hall s hs]
  · rw [hys, catShapes_const _ _ (by omega)]
    have : (2 + n) * (outCh / 2) = (2 + n) * outCh / 2 :=
      (Nat.mul_div_assoc (2 + n) (Nat.dvd_of_mod_eq_zero heven)).symm
    simp [this]

/-- Witness for `csp_split_concat_width` at `out_ch = 256`, `n = 6` (the
`l`/`x`-variant depth) on an 8×8 input. -/
theorem csp_split_concat_width_witness :
    256 % 2 = 0 ∧
    convShape ⟨256, 256, 1, 1⟩ ⟨1, 256, 8, 8⟩ = some ⟨1, 256, 8, 8⟩ ∧
    cspChain (256 / 2) true 6
        [(chunk2Shape ⟨1, 256, 8, 8⟩).1, (chunk2Shape ⟨1, 256, 8, 8⟩).2]
      = some (List.replicate 8 ⟨1, 128, 8, 8⟩) ∧
    ((chunk2Shape (⟨1, 256, 8, 8⟩ : Shape)).1.c = 256 / 2 ∧
      (chunk2Shape (⟨1, 256, 8, 8⟩ : Shape)).2.c = 256 / 2 ∧
      (List.replicate 8 (⟨1, 128, 8, 8⟩ : Shape)).length = 2 + 6 ∧
      (∀ s ∈ List.replicate 8 (⟨1, 128, 8, 8⟩ : Shape), s.c = 256 / 2) ∧
      catShapes (List.replicate 8 (⟨1, 128, 8, 8⟩ : Shape))
        = some ⟨1, (2 + 6) * 256 / 2, 8, 8⟩) :=
  ⟨by decide, by decide, by decide,
    csp_split_concat_width 256 256 6 true ⟨1, 256, 8, 8⟩ ⟨1, 256, 8, 8⟩
      (List.replicate 8 ⟨1, 128, 8, 8⟩) (by decide) (by decide) (by decide)⟩

/-- **C8**: `QAT.forward` is exactly quantize-entry, wrapped model,
dequantize-exit applied independently to each output tensor; the output
list keeps the model's output length, which is three on the wrapped `n`
variant. -/
theorem qat_forward_spec :
    (∀ (m : YOLO) (x : Shape),
      (mkQAT m).forward x =
        (m.forward (quantStubShape x)).map fun l => l.map deQuantStubShape) ∧
    (∀ (m : YOLO) (x : Shape),
      ((mkQAT m).forward x).map List.length
        = (m.forward (quantStubShape x)).map List.length) ∧
    (((yolo_v8_n 80).map mkQAT).bind
        fun q => q.forward ⟨1, 3, 256, 256⟩).map List.length = some 3 := by
  refine ⟨fun m x => rfl, fun m x => ?_, by decide⟩
  show ((m.forward (quantStubShape x)).map fun l => l.map deQuantStubShape).map List.length
      = (m.forward (quantStubShape x)).map List.length
  cases m.forward (quantStubShape x) <;> simp

/-- **C5**: the concatenation step of `CSP.forward`.  If any list member is
quantized, every member of the list actually concatenated is dequantized
(real-valued), the result is the re-quantization of that concatenation, and
its quantization parameters are the original input's when the input is
quantized and `scale = 1, zero_point = 0` otherwise.  If no member is
quantized, the list is concatenated directly with no quantization
round-trip. -/
theorem csp_concat_quantization (x : QTensor) (y_list : List QTensor) :
    (y_list.any QTensor.is_quantized = true →
      (∀ t ∈ y_list.map fun t => if t.is_quantized then t.dequantize else t,
        t.is_quantized = false) ∧
      cspConcat x y_list =
        quantize_per_tensor
          (catQ (y_list.map fun t => if t.is_quantized then t.dequantize else t)).data
          (if x.is_quantized then x.q_scale else 1)
          (if x.is_quantized then x.q_zero_point else 0) ∧
      (cspConcat x y_list).q =
        some ⟨if x.is_quantized then x.q_scale else 1,
              if x.is_quantized then x.q_zero_point else 0⟩) ∧
    (y_list.any QTensor.is_quantized = false →
      cspConcat x y_list = catQ y_list ∧
      (cspConcat x y_list).is_quantized = false) := by
  constructor
  · intro hq
    refine ⟨?_, ?_, ?_⟩
    · intro t ht
      simp only [List.mem_map] at ht
      obtain ⟨t0, -, ht0⟩ := ht
      rcases t0 with ⟨d0, q0⟩
      cases q0 with
      | none =>
        rw [← ht0]
        simp [QTensor.is_quantized]
      | some p =>
        rw [← ht0]
        simp [QTensor.is_quantized, QTensor.dequantize]
    · simp only [cspConcat]
      rw [if_pos hq]
    · simp only [cspConcat]
      rw [if_pos hq]
      rfl
  · intro hq
    have hq' : ¬ y_list.any QTensor.is_quantized = true := by
      rw [hq]
      simp
    constructor
    · simp only [cspConcat]
      rw [if_neg hq']
    · simp only [cspConcat]
      rw [if_neg hq']
      rfl

/-- Witness for `csp_concat_quantization`: a quantized input
(`scale = 2, zero_point = 3`) with a mixed quantized / real list, and a
fully real list. -/
theorem csp_concat_quantization_witness :
    (([⟨[4], some ⟨2, 1⟩⟩, ⟨[5], none⟩] : List QTensor).any QTensor.is_quantized = true ∧
      (cspConcat ⟨[10], some ⟨2, 3⟩⟩ [⟨[4], some ⟨2, 1⟩⟩, ⟨[5], none⟩]).q =
        some ⟨if (⟨[10], some ⟨2, 3⟩⟩ : QTensor).is_quantized
                then (⟨[10], some ⟨2, 3⟩⟩ : QTensor).q_scale else 1,
              if (⟨[10], some ⟨2, 3⟩⟩ : QTensor).is_quantized
                then (⟨[10], some ⟨2, 3⟩⟩ : QTensor).q_zero_point else 0⟩) ∧
    (([⟨[5], none⟩] : List QTensor).any QTensor.is_quantized = false ∧
      cspConcat ⟨[10], none⟩ [⟨[5], none⟩] = catQ [⟨[5], none⟩]) :=
  ⟨⟨rfl, ((csp_concat_quantization ⟨[10], some ⟨2, 3⟩⟩
      [⟨[4], some ⟨2, 1⟩⟩, ⟨[5], none⟩]).1 rfl).2.2⟩,
    ⟨rfl, ((csp_concat_quantization ⟨[10], none⟩ [⟨[5], none⟩]).2 rfl).1⟩⟩

/-- **C6**: `SiLU.forward` on a real-valued tensor is elementwise
`max(v, 0) · sigmoid(v)` and produces a real-valued tensor; on a quantized
tensor it is the quantized multiplication of `x` and `sigmoid(x)` whose
output scale and zero-point are exactly `x`'s own (never recomputed). -/
theorem silu_forward_spec (x : RTensor) :
    (x.is_quantized = false →
      (SiLU.forward x).data = x.data.map (fun v => max v 0 * sigmoid v) ∧
      (SiLU.forward x).scale = none) ∧
    (x.is_quantized = true →
      SiLU.forward x = quantized_mul x (sigmoidT x) x.q_scale x.q_zero_point ∧
      (SiLU.forward x).scale = some (x.q_scale, x.q_zero_point)) := by
  obtain ⟨d, sc⟩ := x
  cases sc with
  | none =>
    refine ⟨fun _ => ⟨?_, ?_⟩, fun h => by simp [RTensor.is_quantized] at h⟩
    · show (mulT (reluT ⟨d, none⟩) (sigmoidT ⟨d, none⟩)).data = _
      simp only [mulT, reluT, sigmoidT]
      rw [List.zipWith_map (· * ·) (fun v => max v 0) sigmoid d d]
      exact List.zipWith_same _ d
    · rfl
  | some p =>
    exact ⟨fun h => by simp [RTensor.is_quantized] at h, fun _ => ⟨rfl, rfl⟩⟩

/-- Witness for `silu_forward_spec`: the real-valued tensor `[0]` and a
quantized tensor with `scale = 2, zero_point = 1`. -/
theorem silu_forward_spec_witness :
    ((SiLU.forward ⟨[0], none⟩).data = ([0] : List ℝ).map (fun v => max v 0 * sigmoid v) ∧
      (SiLU.forward ⟨[0], none⟩).scale = none) ∧
    (SiLU.forward ⟨[3], some (2, 1)⟩
        = quantized_mul ⟨[3], some (2, 1)⟩ (sigmoidT ⟨[3], some (2, 1)⟩)
            (RTensor.q_scale ⟨[3], some (2, 1)⟩)
            (RTensor.q_zero_point ⟨[3], some (2, 1)⟩) ∧
      (SiLU.forward ⟨[3], some (2, 1)⟩).scale
        = some (RTensor.q_scale ⟨[3], some (2, 1)⟩,
                RTensor.q_zero_point ⟨[3], some (2, 1)⟩)) :=
  ⟨(silu_forward_spec ⟨[0], none⟩).1 rfl,
    (silu_forward_spec ⟨[3], some (2, 1)⟩).2 rfl⟩

end YOLOv8
